import Mathlib

/-!
# Verification of the pinyin data-cleaning core (`gui_cleaner_pyqt.py`)

A shallow embedding of the core record-transformation pipeline of the
repository `data_clean_pinyin`:

* `get_correct_pinyin` — the transliterator (source lines 46–53);
* header validation against the required columns (source lines 81–84);
* the per-row rewrite loop of `Worker.run` (source lines 91–106);
* the sheet save step (source lines 111–112).

Cells are modelled by an explicit tagged `Value` type (string / number /
missing), matching the scalar values pandas hands to the loop.  Python
string operations (`str.split`, `str.join`, `str.upper`, `str.strip`,
`str(...)`) are embedded as structurally recursive Lean functions so that
concrete inputs evaluate inside the kernel.
-/

/-- A scalar cell value as pandas presents it to the row loop:
a text cell, a numeric cell (modelled over `Int`; the decimal-text
rendering is what the code consumes), or a null-like missing cell
(`NaN`/`None`, the values on which `pd.notna` is `False`). -/
inductive Value where
  | str : String → Value
  | num : Int → Value
  | missing : Value
deriving DecidableEq, Repr

/-- Embedding of `pd.notna` on scalar cells: `False` exactly on the
null-like marker. -/
def notna : Value → Bool
  | .missing => false
  | _ => true

/-- Embedding of Python `str(...)` on a scalar cell value (line 99 of the
source applies it to `patient_code`).  A numeric cell renders as its
decimal text; the null-like marker renders as `"nan"` (what Python
produces for a float NaN), though the loop never reaches that case. -/
def str_of_value : Value → String
  | .str s => s
  | .num n => toString n
  | .missing => "nan"

/-- Splitting a character list at every occurrence of `sep`, keeping empty
pieces — the semantics of Python `str.split('_')` on the underlying
characters.  Always produces at least one piece. -/
def splitChar (sep : Char) : List Char → List (List Char)
  | [] => [[]]
  | c :: cs =>
    if c = sep then [] :: splitChar sep cs
    else
      match splitChar sep cs with
      | [] => [[c]]
      | r :: rs => (c :: r) :: rs

/-- Embedding of Python `s.split(sep)` for a one-character separator
(line 99: `str(patient_code).split('_')`). -/
def pySplit (s : String) (sep : Char) : List String :=
  (splitChar sep s.data).map List.asString

/-- Embedding of Python `sep.join(parts)` for a one-character separator
(line 102: `'_'.join(parts)`). -/
def pyJoin (sep : Char) : List String → String
  | [] => ""
  | [p] => p
  | p :: ps => p ++ String.singleton sep ++ pyJoin sep ps

/-- Embedding of Python `s.upper()` (line 53), character by character. -/
def pyUpper (s : String) : String :=
  List.asString (s.data.map Char.toUpper)

/-- Embedding of the Python test `not s.strip()` (line 50): the string is
empty or consists only of whitespace. -/
def pyStripIsEmpty (s : String) : Bool :=
  s.data.all Char.isWhitespace

/-- The canonical phonetic table behind the `pypinyin` call
(`pinyin(·, style=Style.NORMAL)`, line 52), restricted to the characters
exercised in this development: one tone-free romanized syllable per
Chinese character. -/
def pinyinTable : List (Char × String) :=
  [('张', "zhang"), ('三', "san"), ('李', "li"), ('王', "wang"),
   ('五', "wu"), ('明', "ming")]

/-- One syllable of the phonetic table `env`; a character with no mapping
passes through as itself, the `pypinyin` default for non-Chinese input
(spec 4.1 edge-case policy). -/
def pinyinSyllableIn (env : List (Char × String)) (c : Char) : String :=
  match env.lookup c with
  | some syl => syl
  | none => String.singleton c

/-- One syllable of the canonical table. -/
def pinyinSyllable (c : Char) : String :=
  pinyinSyllableIn pinyinTable c

/-- Embedding of the library call `pinyin(text, style=Style.NORMAL)`
(line 52) over table `env`: a list of candidate lists, one singleton per
source character. -/
def pinyin_NORMAL (env : List (Char × String)) (text : String) : List (List String) :=
  text.data.map (fun c => [pinyinSyllableIn env c])

/-- `get_correct_pinyin` (source lines 46–53) with the phonetic table
`env` explicit: non-string or blank input gives `""`; otherwise the first
candidate of each syllable list is taken (`item[0]`), the syllables are
joined with no separator and upper-cased. -/
def get_correct_pinyin_env (env : List (Char × String)) (chinese_name : Value) : String :=
  match chinese_name with
  | .str s =>
    if pyStripIsEmpty s then ""
    else pyUpper (String.join (((pinyin_NORMAL env s).map (fun item => item.headD ""))))
  | _ => ""

/-- `get_correct_pinyin` (source lines 46–53) over the canonical table. -/
def get_correct_pinyin (chinese_name : Value) : String :=
  get_correct_pinyin_env pinyinTable chinese_name

/-- A row of the loaded table: a mapping from column name to cell value,
as pandas `iterrows` yields it. -/
abbrev Row := List (String × Value)

/-- Reading `row[col]` on an iterrows row; a column absent from the
mapping of the row behaves as a null-like blank cell, as pandas fills blanks. -/
def rowGet (row : Row) (col : String) : Value :=
  match row.lookup col with
  | some v => v
  | none => .missing

/-- Writing one cell, `df.at[index, col] = v`: every binding of `col` in
the row is replaced by `v`; all other columns are untouched. -/
def rowSet (row : Row) (col : String) (v : Value) : Row :=
  row.map (fun p => if p.1 = col then (p.1, v) else p)

/-- Python `parts[0] = v` as the one fallible operation of the `try`
block: in-bounds assignment sets index `i`, out-of-bounds raises
(`none`). -/
def list_setFallible (parts : List String) (i : Nat) (v : String) : Option (List String) :=
  if i < parts.length then some (parts.set i v) else none

/-- The `try` block of the row loop (source lines 98–104): split the
text of the identifier on the underscore; with at least two segments, assign the code
into segment 0, rejoin and write back (counting the row); with fewer,
leave the row alone.  `none` is the raised-exception outcome the `except`
arm would catch. -/
def try_block (correct_pinyin : String) (row : Row) (patient_code : Value) :
    Option (Row × Nat) :=
  let parts := pySplit (str_of_value patient_code) '_'
  if parts.length ≥ 2 then
    match list_setFallible parts 0 correct_pinyin with
    | some parts2 =>
      some (rowSet row "patientcode" (.str (pyJoin '_' parts2)), 1)
    | none => none
  else
    some (row, 0)

/-- One iteration of the row loop of `Worker.run` (source lines 92–106):
the `pd.notna` gate, the transliteration, and the `try`/`except` around
the split/assign/join, the `except` arm leaving the row unmodified and
uncounted.  Returns the (possibly updated) row and its contribution to
`processed_count`. -/
def processRow (row : Row) : Row × Nat :=
  let client_name := rowGet row "clientname"
  let patient_code := rowGet row "patientcode"
  if notna client_name && notna patient_code then
    let correct_pinyin := get_correct_pinyin client_name
    match try_block correct_pinyin row patient_code with
    | some res => res
    | none => (row, 0)
  else
    (row, 0)

/-- The full row loop (source lines 91–106): rows in original order, the
counter accumulated across them. -/
def rewrite : List Row → List Row × Nat
  | [] => ([], 0)
  | row :: rest =>
    let step := processRow row
    let restRes := rewrite rest
    (step.1 :: restRes.1, step.2 + restRes.2)

/-- The required-column contract (source line 81). -/
def required_cols : List String := ["clientname", "patientcode"]

/-- The set difference `required_cols - columns` (source line 83),
realized as a filter so the difference is computable and lists every
missing column. -/
def missing_cols (columns : List String) : List String :=
  required_cols.filter (fun c => !(columns.contains c))

/-- Header validation (source lines 82–84): succeed when `required_cols`
is a subset of the header, otherwise fail carrying the complete list of
missing columns (the source interpolates all of them into its error
message). -/
def validate_header (columns : List String) : Except (List String) Unit :=
  if required_cols.all (fun c => columns.contains c) then .ok ()
  else .error (missing_cols columns)

/-- A sheet: its header row plus its data rows in order. -/
structure Sheet where
  header : List String
  rows : List Row
deriving DecidableEq, Repr

/-- A spreadsheet file: named sheets in order. -/
structure Workbook where
  sheets : List (String × Sheet)
deriving DecidableEq, Repr

/-- The save step (source lines 111–112): the `pd.ExcelWriter` call,
in append mode with sheet replacement, replaces the contents of the named sheet when
it exists and appends it otherwise, leaving every other sheet of the file
as it was. -/
def save_sheet (wb : Workbook) (sheet_name : String) (s : Sheet) : Workbook :=
  if (wb.sheets.map Prod.fst).contains sheet_name then
    ⟨wb.sheets.map (fun p => if p.1 = sheet_name then (p.1, s) else p)⟩
  else
    ⟨wb.sheets ++ [(sheet_name, s)]⟩

/-- The outcomes `Worker.run` can fail with before finishing: the sheet
read failing (source line 79) or the header validation failing with its
missing columns (source line 84). -/
inductive RunError where
  | readError : RunError
  | missingColumns : List String → RunError
deriving DecidableEq, Repr

/-- The whole of `Worker.run` (source lines 70–114) on an in-memory
workbook: read the header of the named sheet and validate it, then read the
rows, rewrite them, and save the sheet back into the same workbook,
reporting `processed_count`.  A validation failure aborts before any row
processing or write. -/
def worker_run (wb : Workbook) (sheet_name : String) :
    Except RunError (Workbook × Nat) :=
  match wb.sheets.lookup sheet_name with
  | none => .error .readError
  | some df =>
    match validate_header df.header with
    | .error m => .error (.missingColumns m)
    | .ok _ =>
      let res := rewrite df.rows
      .ok (save_sheet wb sheet_name ⟨df.header, res.1⟩, res.2)

/-- A qualifying row (spec glossary): name and identifier both present
(not null-like) and the text of the identifier splitting into at least two
underscore-delimited segments. -/
def qualifies (r : Row) : Bool :=
  notna (rowGet r "clientname") && notna (rowGet r "patientcode") &&
    decide (2 ≤ (pySplit (str_of_value (rowGet r "patientcode")) '_').length)

/-- Modelled from the spec (4.1): for non-empty text the transliterator
decomposes it into one romanized syllable per source character using the
canonical phonetic table, concatenates the syllables in original order
with no separator, and upper-cases the result. -/
def transliterate_spec (env : List (Char × String)) (s : String) : String :=
  pyUpper (String.join (s.data.map (pinyinSyllableIn env)))

/-- A call to the transliterator with the ambient state it could touch —
the phonetic-table configuration (set up once by the source via
environment variables, lines 40–41) — threaded explicitly: the call
returns its result together with the state it leaves behind. -/
def get_correct_pinyin_call (env : List (Char × String)) (v : Value) :
    String × List (Char × String) :=
  (get_correct_pinyin_env env v, env)

/-- The example row of the spec: name `张三`, identifier `oldcode_001`. -/
def exampleRow : Row :=
  [("clientname", .str "张三"), ("patientcode", .str "oldcode_001")]

/-- A two-sheet workbook for exercising the save step. -/
def twoSheetWorkbook : Workbook :=
  ⟨[("A", ⟨["clientname", "patientcode"], [exampleRow]⟩),
    ("B", ⟨["x"], [[("x", .num 1)]]⟩)]⟩

/-- Replacement contents for sheet `A` of `twoSheetWorkbook`. -/
def sheetA2 : Sheet :=
  ⟨["clientname", "patientcode"], [[("clientname", .str "李明"), ("patientcode", .str "LIMING_2")]]⟩

/-! ## Helper lemmas -/

lemma splitChar_ne_nil (sep : Char) (l : List Char) : splitChar sep l ≠ [] := by
  induction l with
  | nil => simp [splitChar]
  | cons c cs ih =>
    simp only [splitChar]
    by_cases h : c = sep
    · simp [h]
    · simp only [h, if_false]
      cases hs : splitChar sep cs <;> simp

lemma pySplit_length_pos (s : String) (sep : Char) : 0 < (pySplit s sep).length := by
  rw [pySplit, List.length_map]
  cases hs : splitChar sep s.data with
  | nil => exact absurd hs (splitChar_ne_nil sep s.data)
  | cons a t => simp

lemma splitChar_of_not_mem (sep : Char) (l : List Char) (h : ¬ sep ∈ l) :
    splitChar sep l = [l] := by
  induction l with
  | nil => simp [splitChar]
  | cons c cs ih =>
    simp only [List.mem_cons, not_or] at h
    have hc : ¬ c = sep := fun hh => h.1 hh.symm
    have hcs : splitChar sep cs = [cs] := ih h.2
    rw [splitChar, if_neg hc, hcs]

lemma pySplit_of_not_mem (s : String) (sep : Char) (h : ¬ sep ∈ s.data) :
    pySplit s sep = [s.data.asString] := by
  rw [pySplit, splitChar_of_not_mem sep s.data h, List.map_cons, List.map_nil]

lemma lookup_cons {β : Type} (a k : String) (b : β) (l : List (String × β)) :
    List.lookup a ((k, b) :: l) = cond (a == k) (some b) (List.lookup a l) := by
  cases h : a == k <;> simp [List.lookup, h]

lemma rowSet_cons (k : String) (w : Value) (tl : Row) (col : String) (v : Value) :
    rowSet ((k, w) :: tl) col v =
      (if k = col then (k, v) else (k, w)) :: rowSet tl col v := rfl

lemma lookup_rowSet_ne (row : Row) (col c : String) (v : Value) (h : c ≠ col) :
    (rowSet row col v).lookup c = row.lookup c := by
  induction row with
  | nil => rfl
  | cons p tl ih =>
    obtain ⟨k, w⟩ := p
    rw [rowSet_cons]
    by_cases hk : k = col
    · rw [if_pos hk]
      have hck : (c == k) = false := beq_eq_false_iff_ne.mpr (fun hh => h (hh.trans hk))
      rw [lookup_cons, lookup_cons, hck, Bool.cond_false, Bool.cond_false, ih]
    · rw [if_neg hk, lookup_cons, lookup_cons]
      cases hck : (c == k) with
      | true => simp
      | false => simp [ih]

lemma rowGet_rowSet_ne (row : Row) (col c : String) (v : Value) (h : c ≠ col) :
    rowGet (rowSet row col v) c = rowGet row c := by
  rw [rowGet, rowGet, lookup_rowSet_ne row col c v h]

lemma lookup_map_replace_ne {β : Type} (l : List (String × β)) (name other : String)
    (s : β) (h : other ≠ name) :
    (l.map (fun p => if p.1 = name then (p.1, s) else p)).lookup other =
      l.lookup other := by
  induction l with
  | nil => rfl
  | cons p tl ih =>
    obtain ⟨k, w⟩ := p
    show List.lookup other ((if k = name then (k, s) else (k, w)) :: _) = _
    by_cases hk : k = name
    · rw [if_pos hk]
      have hck : (other == k) = false :=
        beq_eq_false_iff_ne.mpr (fun hh => h (hh.trans hk))
      rw [lookup_cons, lookup_cons, hck, Bool.cond_false, Bool.cond_false, ih]
    · rw [if_neg hk, lookup_cons, lookup_cons]
      cases hck : (other == k) with
      | true => simp
      | false => simp [ih]

lemma lookup_map_replace_eq {β : Type} (l : List (String × β)) (name : String)
    (s : β) (h : (l.map Prod.fst).contains name = true) :
    (l.map (fun p => if p.1 = name then (p.1, s) else p)).lookup name = some s := by
  induction l with
  | nil => simp at h
  | cons p tl ih =>
    obtain ⟨k, w⟩ := p
    show List.lookup name ((if k = name then (k, s) else (k, w)) :: _) = _
    by_cases hk : k = name
    · rw [if_pos hk, lookup_cons]
      have : (name == k) = true := by simp [hk]
      rw [this, Bool.cond_true]
    · rw [if_neg hk, lookup_cons]
      have hnk : (name == k) = false :=
        beq_eq_false_iff_ne.mpr (fun hh => hk hh.symm)
      rw [hnk, Bool.cond_false]
      apply ih
      rw [List.elem_iff] at h ⊢
      rw [List.map_cons] at h
      rcases List.mem_cons.mp h with hh | hh
      · exact absurd hh.symm hk
      · exact hh

lemma lookup_append_singleton_ne {β : Type} (l : List (String × β))
    (name other : String) (s : β) (h : other ≠ name) :
    (l ++ [(name, s)]).lookup other = l.lookup other := by
  induction l with
  | nil =>
    show List.lookup other [(name, s)] = none
    rw [lookup_cons, beq_eq_false_iff_ne.mpr h, Bool.cond_false]
    rfl
  | cons p tl ih =>
    obtain ⟨k, w⟩ := p
    rw [List.cons_append, lookup_cons, lookup_cons, ih]

lemma try_block_isSome (cp : String) (r : Row) (v : Value) :
    try_block cp r v ≠ none := by
  rw [try_block]
  by_cases h : 2 ≤ (pySplit (str_of_value v) '_').length
  · have h0 : 0 < (pySplit (str_of_value v) '_').length := by omega
    simp [h, list_setFallible, h0]
  · simp [h]

lemma try_block_short (cp : String) (r : Row) (v : Value)
    (h : (pySplit (str_of_value v) '_').length < 2) :
    try_block cp r v = some (r, 0) := by
  rw [try_block]
  simp only [ge_iff_le]
  rw [if_neg (by omega)]

lemma try_block_long (cp : String) (r : Row) (v : Value) (seg0 : String)
    (rest : List String) (hsplit : pySplit (str_of_value v) '_' = seg0 :: rest)
    (hrest : rest ≠ []) :
    try_block cp r v =
      some (rowSet r "patientcode" (.str (pyJoin '_' (cp :: rest))), 1) := by
  rw [try_block]
  simp only [hsplit, List.length_cons, ge_iff_le]
  have hlen : 1 ≤ rest.length := List.length_pos.mpr hrest
  rw [if_pos (by omega)]
  simp [list_setFallible]

lemma processRow_gate_false (r : Row)
    (h : (notna (rowGet r "clientname") && notna (rowGet r "patientcode")) = false) :
    processRow r = (r, 0) := by
  rw [processRow]
  simp [h]

lemma processRow_short (r : Row)
    (h : (pySplit (str_of_value (rowGet r "patientcode")) '_').length < 2) :
    processRow r = (r, 0) := by
  rw [processRow]
  by_cases hg : (notna (rowGet r "clientname") && notna (rowGet r "patientcode")) = true
  · simp only [hg, if_true]
    rw [try_block_short _ _ _ h]
  · simp only [Bool.not_eq_true] at hg
    simp [hg]

lemma processRow_long (r : Row) (seg0 : String) (rest : List String)
    (h1 : notna (rowGet r "clientname") = true)
    (h2 : notna (rowGet r "patientcode") = true)
    (hsplit : pySplit (str_of_value (rowGet r "patientcode")) '_' = seg0 :: rest)
    (hrest : rest ≠ []) :
    processRow r =
      (rowSet r "patientcode"
        (.str (pyJoin '_' (get_correct_pinyin (rowGet r "clientname") :: rest))), 1) := by
  rw [processRow]
  simp only [h1, h2, Bool.and_self, if_true]
  rw [try_block_long _ _ _ seg0 rest hsplit hrest]

lemma rewrite_fst (df : List Row) :
    (rewrite df).1 = df.map (fun r => (processRow r).1) := by
  induction df with
  | nil => rfl
  | cons r rest ih => simp [rewrite, ih]

lemma all_contains_iff_missing_nil (columns : List String) :
    (required_cols.all (fun c => columns.contains c)) = true ↔
      missing_cols columns = [] := by
  rw [List.all_eq_true, missing_cols, List.filter_eq_nil_iff]
  constructor
  · intro h a ha
    have := h a ha
    simpa using this
  · intro h a ha
    have := h a ha
    simpa using this

lemma validate_header_ok (columns : List String) (h : missing_cols columns = []) :
    validate_header columns = .ok () := by
  rw [validate_header, if_pos ((all_contains_iff_missing_nil columns).mpr h)]

lemma validate_header_err (columns : List String) (h : missing_cols columns ≠ []) :
    validate_header columns = .error (missing_cols columns) := by
  rw [validate_header,
    if_neg (fun hc => h ((all_contains_iff_missing_nil columns).mp hc))]

lemma processRow_shape (r : Row) :
    processRow r = (r, 0) ∨
    ∃ v : Value, (processRow r).1 = rowSet r "patientcode" v := by
  by_cases hg : (notna (rowGet r "clientname") && notna (rowGet r "patientcode")) = true
  · by_cases hl : 2 ≤ (pySplit (str_of_value (rowGet r "patientcode")) '_').length
    · right
      obtain ⟨s0, rest, hsp, hrest⟩ :
          ∃ s0 rest, pySplit (str_of_value (rowGet r "patientcode")) '_' = s0 :: rest ∧
            rest ≠ [] := by
        cases hp : pySplit (str_of_value (rowGet r "patientcode")) '_' with
        | nil => rw [hp] at hl; simp at hl
        | cons a t =>
          cases t with
          | nil => rw [hp] at hl; simp at hl
          | cons b u => exact ⟨a, b :: u, rfl, by simp⟩
      obtain ⟨h1, h2⟩ := Bool.and_eq_true_iff.mp hg
      refine ⟨.str (pyJoin '_' (get_correct_pinyin (rowGet r "clientname") :: rest)), ?_⟩
      rw [processRow_long r s0 rest h1 h2 hsp hrest]
    · left
      exact processRow_short r (by omega)
  · left
    exact processRow_gate_false r (by simpa using hg)

lemma processRow_unqualified (r : Row) (hq : qualifies r = false) :
    processRow r = (r, 0) := by
  by_cases hg : (notna (rowGet r "clientname") && notna (rowGet r "patientcode")) = true
  · have hlen : ¬ 2 ≤ (pySplit (str_of_value (rowGet r "patientcode")) '_').length := by
      rw [qualifies, hg, Bool.true_and] at hq
      simpa using hq
    exact processRow_short r (by omega)
  · exact processRow_gate_false r (by simpa using hg)

/-! ## Claim theorems -/

/-- Claim C1: on every qualifying row (name and identifier both present, the
identifier splitting into at least two underscore-delimited segments) the
rewrite step replaces the first segment with the transliterated code,
keeps every later segment verbatim, rejoins them with `_`, writes the
result back into the identifier field, and contributes exactly 1 to
`processed_count`. -/
theorem processRow_rewrites_qualifying_row (r : Row) (seg0 : String)
    (rest : List String)
    (h1 : notna (rowGet r "clientname") = true)
    (h2 : notna (rowGet r "patientcode") = true)
    (hsplit : pySplit (str_of_value (rowGet r "patientcode")) '_' = seg0 :: rest)
    (hrest : rest ≠ []) :
    processRow r =
      (rowSet r "patientcode"
        (.str (pyJoin '_' (get_correct_pinyin (rowGet r "clientname") :: rest))), 1) :=
  processRow_long r seg0 rest h1 h2 hsplit hrest

/-- Witness for C1: the example of the spec — name `张三`, identifier
`oldcode_001` — is rewritten to `ZHANGSAN_001` and counted once. -/
theorem processRow_rewrites_qualifying_row_witness :
    processRow exampleRow = (rowSet exampleRow "patientcode" (.str "ZHANGSAN_001"), 1) :=
  (processRow_rewrites_qualifying_row exampleRow "oldcode" ["001"]
    (by decide) (by decide) (by decide) (by decide)).trans (by decide)

/-- Claim C2: the rewrite pass keeps the row count and the row order of the
table (output row `i` comes from input row `i`), changes at most the
`patientcode` cell of any row, and leaves a non-qualifying row entirely
unchanged. -/
theorem rewrite_frame (df : List Row) :
    (rewrite df).1.length = df.length ∧
    (rewrite df).1 = df.map (fun r => (processRow r).1) ∧
    (∀ r : Row, ∀ c : String, c ≠ "patientcode" →
      rowGet ((processRow r).1) c = rowGet r c) ∧
    (∀ r : Row, qualifies r = false → (processRow r).1 = r) := by
  refine ⟨?_, rewrite_fst df, ?_, ?_⟩
  · rw [rewrite_fst, List.length_map]
  · intro r c hc
    rcases processRow_shape r with h | ⟨v, h⟩
    · rw [h]
    · rw [h, rowGet_rowSet_ne _ _ _ _ hc]
  · intro r hq
    rw [processRow_unqualified r hq]

/-- Witness for C2: on a one-row table the rewrite keeps one row, and the
`clientname` cell of the example row is untouched. -/
theorem rewrite_frame_witness :
    (rewrite [exampleRow]).1.length = 1 ∧
    rowGet ((processRow exampleRow).1) "clientname" = Value.str "张三" := by
  have h := rewrite_frame [exampleRow]
  refine ⟨by simpa using h.1, ?_⟩
  rw [h.2.2.1 exampleRow "clientname" (by decide)]
  decide

/-- Claim C3: header validation computes the set difference
`required_cols - columns`; it succeeds exactly when that difference is
empty and otherwise fails naming every missing column, and a failing
validation makes `Worker.run` abort with that error before any row
processing or write. -/
theorem validate_header_missing_columns (columns : List String) (wb : Workbook)
    (sheet_name : String) (df : Sheet)
    (hlookup : wb.sheets.lookup sheet_name = some df) :
    (missing_cols columns = [] → validate_header columns = .ok ()) ∧
    (missing_cols columns ≠ [] →
      validate_header columns = .error (missing_cols columns)) ∧
    (∀ c, c ∈ missing_cols columns ↔ c ∈ required_cols ∧ ¬ c ∈ columns) ∧
    (missing_cols df.header ≠ [] →
      worker_run wb sheet_name = .error (.missingColumns (missing_cols df.header))) := by
  refine ⟨validate_header_ok columns, validate_header_err columns, ?_, ?_⟩
  · intro c
    simp [missing_cols, List.mem_filter]
  · intro hmiss
    simp only [worker_run, hlookup]
    rw [validate_header_err df.header hmiss]

/-- Witness for C3: a sheet whose header has only `patientcode` fails
validation with exactly `clientname` missing, and the run aborts with
that error. -/
theorem validate_header_missing_columns_witness :
    validate_header ["patientcode"] = .error ["clientname"] ∧
    worker_run ⟨[("s", ⟨["patientcode"], []⟩)]⟩ "s" =
      .error (.missingColumns ["clientname"]) := by
  have h := validate_header_missing_columns ["patientcode"]
    ⟨[("s", ⟨["patientcode"], []⟩)]⟩ "s" ⟨["patientcode"], []⟩ (by decide)
  have hm : missing_cols ["patientcode"] = ["clientname"] := by decide
  constructor
  · rw [h.2.1 (by decide), hm]
  · have := h.2.2.2 (by decide)
    rw [this]
    rw [show missing_cols (Sheet.mk ["patientcode"] []).header = ["clientname"] from by decide]

/-- Claim C4: a row whose name or identifier cell is null-like is skipped:
left unmodified and contributing 0 to `processed_count`. -/
theorem processRow_skips_null_like (r : Row)
    (h : rowGet r "clientname" = Value.missing ∨
      rowGet r "patientcode" = Value.missing) :
    processRow r = (r, 0) := by
  apply processRow_gate_false
  rcases h with h | h <;> rw [h] <;> simp [notna]

/-- Witness for C4: the example of the spec — name missing, identifier
`x_1` — is left unmodified and not counted. -/
theorem processRow_skips_null_like_witness :
    processRow [("clientname", Value.missing), ("patientcode", Value.str "x_1")]
      = ([("clientname", Value.missing), ("patientcode", Value.str "x_1")], 0) :=
  processRow_skips_null_like _ (Or.inl (by decide))

/-- Claim C5: a row whose identifier text splits into fewer than two
underscore-delimited segments is left unmodified and contributes 0 to
`processed_count`. -/
theorem processRow_skips_short_identifier (r : Row)
    (h : (pySplit (str_of_value (rowGet r "patientcode")) '_').length < 2) :
    processRow r = (r, 0) :=
  processRow_short r h

/-- Witness for C5: the example of the spec — identifier
`onlyonesegment` with no delimiter — is left unmodified and not counted. -/
theorem processRow_skips_short_identifier_witness :
    processRow [("clientname", Value.str "张三"), ("patientcode", Value.str "onlyonesegment")]
      = ([("clientname", Value.str "张三"), ("patientcode", Value.str "onlyonesegment")], 0) :=
  processRow_skips_short_identifier _ (by decide)

/-- Claim C6: the transliterator returns the empty code, without failing, on
empty input, whitespace-only input, and non-text (numeric or null-like)
input. -/
theorem get_correct_pinyin_blank_or_nontext (s : String) (n : Int)
    (hs : pyStripIsEmpty s = true) :
    get_correct_pinyin (Value.str s) = "" ∧
    get_correct_pinyin (Value.num n) = "" ∧
    get_correct_pinyin Value.missing = "" := by
  refine ⟨?_, rfl, rfl⟩
  simp [get_correct_pinyin, get_correct_pinyin_env, hs]

/-- Witness for C6: the whitespace string `"  "` and the number 7 both
transliterate to the empty code. -/
theorem get_correct_pinyin_blank_or_nontext_witness :
    get_correct_pinyin (Value.str "  ") = "" ∧
    get_correct_pinyin (Value.num 7) = "" ∧
    get_correct_pinyin Value.missing = "" :=
  get_correct_pinyin_blank_or_nontext "  " 7 (by decide)

/-- Claim C7: on non-empty text the transliterator agrees with the
description of the spec: one romanized syllable per source character from the
canonical phonetic table, concatenated in original order with no
separator and upper-cased. -/
theorem get_correct_pinyin_matches_transliterate_spec (s : String)
    (h : pyStripIsEmpty s = false) :
    get_correct_pinyin (Value.str s) = transliterate_spec pinyinTable s := by
  have hmap : ∀ l : List Char,
      (l.map (fun c => [pinyinSyllableIn pinyinTable c])).map
          (fun item => item.headD "")
        = l.map (pinyinSyllableIn pinyinTable) := by
    intro l
    induction l with
    | nil => rfl
    | cons c cs ih => simp only [List.map_cons, List.headD_cons, ih]
  rw [get_correct_pinyin]
  show (if pyStripIsEmpty s then ""
    else pyUpper (String.join ((pinyin_NORMAL pinyinTable s).map
      (fun item => item.headD "")))) = _
  rw [h, if_neg Bool.false_ne_true, transliterate_spec, pinyin_NORMAL, hmap s.data]

/-- Witness for C7: `张三` transliterates per the description of the
spec, and the result is `ZHANGSAN`. -/
theorem get_correct_pinyin_matches_transliterate_spec_witness :
    get_correct_pinyin (Value.str "张三") = transliterate_spec pinyinTable "张三" ∧
    transliterate_spec pinyinTable "张三" = "ZHANGSAN" :=
  ⟨get_correct_pinyin_matches_transliterate_spec "张三" (by decide), by decide⟩

/-- Claim C8: the transliterator is a pure, deterministic function: a call
leaves the ambient phonetic-table state unchanged, a second call on the
state the first call left behind returns the same output, and the
source function is exactly the table-parameterized function applied to
the canonical table. -/
theorem get_correct_pinyin_pure_deterministic (env : List (Char × String)) (v : Value) :
    (get_correct_pinyin_call env v).2 = env ∧
    (get_correct_pinyin_call ((get_correct_pinyin_call env v).2) v).1 =
      (get_correct_pinyin_call env v).1 ∧
    get_correct_pinyin v = get_correct_pinyin_env pinyinTable v :=
  ⟨rfl, rfl, rfl⟩

/-- Claim C9: the save step replaces only the named sheet: the contents
of every other sheet are exactly what they were before the call, and when the named
sheet exists its contents become the saved table. -/
theorem save_sheet_preserves_other_sheets (wb : Workbook)
    (sheet_name other : String) (s : Sheet) (h : other ≠ sheet_name) :
    (save_sheet wb sheet_name s).sheets.lookup other = wb.sheets.lookup other ∧
    ((wb.sheets.map Prod.fst).contains sheet_name = true →
      (save_sheet wb sheet_name s).sheets.lookup sheet_name = some s) := by
  constructor
  · by_cases hc : ((wb.sheets.map Prod.fst).contains sheet_name) = true
    · rw [save_sheet, if_pos hc]
      exact lookup_map_replace_ne _ _ _ _ h
    · rw [save_sheet, if_neg (by simpa using hc)]
      exact lookup_append_singleton_ne _ _ _ _ h
  · intro hc
    rw [save_sheet, if_pos hc]
    exact lookup_map_replace_eq _ _ _ hc

/-- Witness for C9: saving new contents for sheet `A` of a two-sheet
workbook leaves the data of sheet `B` equal to its pre-call data and stores
the new contents under `A`. -/
theorem save_sheet_preserves_other_sheets_witness :
    (save_sheet twoSheetWorkbook "A" sheetA2).sheets.lookup "B" =
      twoSheetWorkbook.sheets.lookup "B" ∧
    (save_sheet twoSheetWorkbook "A" sheetA2).sheets.lookup "A" = some sheetA2 := by
  have h := save_sheet_preserves_other_sheets twoSheetWorkbook "A" "B" sheetA2 (by decide)
  exact ⟨h.1, h.2 (by decide)⟩

/-- Claim C10: per-row identifier processing is total over scalar cell values:
the `try` block around split/assign/join can never reach its error
outcome (the identifier is coerced to text first and the index-0
assignment is guarded by the segment count), and a present numeric
identifier with no underscore in its decimal text is simply skipped as
having fewer than two segments. -/
theorem row_processing_total_on_scalars (cp : String) (r : Row) (v : Value)
    (r2 : Row) (n : Int)
    (hnum : rowGet r2 "patientcode" = Value.num n)
    (hnosep : ¬ '_' ∈ (str_of_value (Value.num n)).data) :
    try_block cp r v ≠ none ∧ processRow r2 = (r2, 0) := by
  refine ⟨try_block_isSome cp r v, ?_⟩
  apply processRow_short
  rw [hnum, pySplit_of_not_mem _ _ hnosep]
  simp

/-- Witness for C10: the `try` block succeeds on the example row, and a
row with numeric identifier 12345 is skipped uncounted. -/
theorem row_processing_total_on_scalars_witness :
    try_block "X" exampleRow (Value.str "a_b") ≠ none ∧
    processRow [("clientname", Value.str "王五"), ("patientcode", Value.num 12345)]
      = ([("clientname", Value.str "王五"), ("patientcode", Value.num 12345)], 0) :=
  row_processing_total_on_scalars "X" exampleRow (Value.str "a_b") _ 12345
    (by decide) (by decide)
